import Mathlib

/-!
Verification of the penny-stock scanner (`scanner.py`).

Numeric model: Python floats are modelled as exact rationals; `round(x, n)`
is modelled as correct decimal rounding (half-to-even) of the exact value of
its argument at `n` decimal digits, and `int(x)` as truncation toward zero.
Where the binary64 representation error of an intermediate double is decisive
(it is for exactly one concrete value below, Example 1's target2, whose exact
product sits on a decimal midpoint), the double is introduced as its exact
dyadic rational together with a half-ulp certificate that it is the unique
nearest binary64 value.  Fallible stages are modelled with `Option`/`Except`;
each definition mirrors the corresponding source lines.
-/

/-- Round-half-to-even to the nearest integer (banker's rounding, as used by
Python's `round`).  Written with `Rat.floor` so that it evaluates by kernel
reduction. -/
def rhe (x : ℚ) : ℤ :=
  if x - (x.floor : ℚ) < 1/2 then x.floor
  else if 1/2 < x - (x.floor : ℚ) then x.floor + 1
  else if x.floor % 2 = 0 then x.floor else x.floor + 1

/-- Python's `round(x, n)`: round to `n` decimal digits, ties to even. -/
def roundDec (n : ℕ) (x : ℚ) : ℚ := (rhe (x * 10 ^ n) : ℚ) / 10 ^ n

/-- Python's `int(x)` on a float: truncation toward zero. -/
def pyInt (x : ℚ) : ℤ := if 0 ≤ x then x.floor else -((-x).floor)

theorem ratFloor_eq_floor (x : ℚ) : x.floor = ⌊x⌋ :=
  (Rat.floor_def' x).trans Rat.floor_def.symm

theorem rhe_eq (x : ℚ) : rhe x =
    if x - (⌊x⌋ : ℚ) < 1/2 then ⌊x⌋
    else if 1/2 < x - (⌊x⌋ : ℚ) then ⌊x⌋ + 1
    else if ⌊x⌋ % 2 = 0 then ⌊x⌋ else ⌊x⌋ + 1 := by
  simp only [rhe, ratFloor_eq_floor]

theorem rhe_intCast (k : ℤ) : rhe (k : ℚ) = k := by
  rw [rhe_eq]
  simp

theorem rhe_le (x : ℚ) : (rhe x : ℚ) ≤ x + 1/2 := by
  have hfl : (⌊x⌋ : ℚ) ≤ x := Int.floor_le x
  rw [rhe_eq]
  split_ifs with h1 h2 h3 <;> push_cast <;> linarith

theorem le_rhe (x : ℚ) : x - 1/2 ≤ (rhe x : ℚ) := by
  have hfl : x < (⌊x⌋ : ℚ) + 1 := Int.lt_floor_add_one x
  rw [rhe_eq]
  split_ifs with h1 h2 h3 <;> push_cast <;> linarith

theorem rhe_mono {x y : ℚ} (h : x ≤ y) : rhe x ≤ rhe y := by
  have hf : ⌊x⌋ ≤ ⌊y⌋ := Int.floor_le_floor h
  rcases lt_or_eq_of_le hf with hlt | heq
  · have h1 : rhe x ≤ ⌊x⌋ + 1 := by
      rw [rhe_eq]; split_ifs <;> omega
    have h2 : ⌊y⌋ ≤ rhe y := by
      rw [rhe_eq]; split_ifs <;> omega
    omega
  · have hq : ((⌊x⌋ : ℤ) : ℚ) = ((⌊y⌋ : ℤ) : ℚ) := by exact_mod_cast heq
    have hfr : x - (⌊x⌋ : ℚ) ≤ y - (⌊y⌋ : ℚ) := by rw [hq] at *; linarith
    rw [rhe_eq, rhe_eq]
    split_ifs <;> first | omega | linarith

theorem roundDec_mono (n : ℕ) {x y : ℚ} (h : x ≤ y) : roundDec n x ≤ roundDec n y := by
  have hpow : (0:ℚ) < 10 ^ n := by positivity
  have hm : x * 10 ^ n ≤ y * 10 ^ n := by
    exact mul_le_mul_of_nonneg_right h (le_of_lt hpow)
  have := rhe_mono hm
  have hc : ((rhe (x * 10 ^ n) : ℤ) : ℚ) ≤ ((rhe (y * 10 ^ n) : ℤ) : ℚ) := by exact_mod_cast this
  unfold roundDec
  exact div_le_div_of_nonneg_right hc hpow.le |>.trans_eq rfl

theorem roundDec_intGrid (n : ℕ) (k : ℤ) : roundDec n ((k : ℚ) / 10 ^ n) = (k : ℚ) / 10 ^ n := by
  have hpow : (10:ℚ) ^ n ≠ 0 := by positivity
  unfold roundDec
  rw [div_mul_cancel₀ _ hpow, rhe_intCast]

theorem roundDec_le (n : ℕ) (x : ℚ) : roundDec n x ≤ x + 1 / (2 * 10 ^ n) := by
  have hpow : (0:ℚ) < 10 ^ n := by positivity
  have h := rhe_le (x * 10 ^ n)
  have h2 : (rhe (x * 10 ^ n) : ℚ) / 10 ^ n ≤ (x * 10 ^ n + 1/2) / 10 ^ n :=
    div_le_div_of_nonneg_right h hpow.le |>.trans_eq rfl
  calc roundDec n x ≤ (x * 10 ^ n + 1/2) / 10 ^ n := h2
    _ = x + 1 / (2 * 10 ^ n) := by field_simp; ring

theorem le_roundDec (n : ℕ) (x : ℚ) : x - 1 / (2 * 10 ^ n) ≤ roundDec n x := by
  have hpow : (0:ℚ) < 10 ^ n := by positivity
  have h := le_rhe (x * 10 ^ n)
  have h2 : (x * 10 ^ n - 1/2) / 10 ^ n ≤ (rhe (x * 10 ^ n) : ℚ) / 10 ^ n :=
    div_le_div_of_nonneg_right h hpow.le |>.trans_eq rfl
  calc x - 1 / (2 * 10 ^ n) = (x * 10 ^ n - 1/2) / 10 ^ n := by field_simp; ring
    _ ≤ roundDec n x := h2

theorem pyInt_eq (x : ℚ) : pyInt x = if 0 ≤ x then ⌊x⌋ else ⌈x⌉ := by
  simp only [pyInt, ratFloor_eq_floor, Int.floor_neg, neg_neg]

theorem le_pyInt {m : ℤ} {x : ℚ} (h : (m : ℚ) ≤ x) : m ≤ pyInt x := by
  rw [pyInt_eq]
  split_ifs with h0
  · exact Int.le_floor.mpr h
  · have hc : (m : ℚ) ≤ (⌈x⌉ : ℚ) := le_trans h (Int.le_ceil x)
    exact_mod_cast hc

example : roundDec 4 (299996/100000 : ℚ) = 3 := by
  norm_num [roundDec, rhe, ratFloor_eq_floor]
example : pyInt (500000/3 : ℚ) = 166666 := by
  norm_num [pyInt, ratFloor_eq_floor]

/-! ## Data model: configuration and candidate records (scanner.py lines 10-17, 173-182) -/

/-- Environment-sourced configuration (scanner.py lines 10-15).  `MIN_AVG_VOL`
is read with `int(...)`, the other thresholds with `float(...)`. -/
structure Config where
  MIN_PRICE : ℚ
  MAX_PRICE : ℚ
  MIN_AVG_VOL : ℤ
  VOL_RATIO_THRESHOLD : ℚ
  PCT_CHANGE_MIN : ℚ
deriving DecidableEq

/-- The documented defaults: 0.50, 3.00, 500000, 4.0, 8.0. -/
def defaultConfig : Config :=
  { MIN_PRICE := 1/2, MAX_PRICE := 3, MIN_AVG_VOL := 500000
    VOL_RATIO_THRESHOLD := 4, PCT_CHANGE_MIN := 8 }

/-- A row appended to `results` in `scan_universe` (scanner.py lines 173-182). -/
structure Candidate where
  Ticker : String
  LastPrice : ℚ
  PctChange : ℚ
  AvgVol20d : ℤ
  TodayVol : ℤ
  VolRatio : ℚ
  High20d : ℚ
  Breakout : Bool
deriving DecidableEq

/-! ## Per-ticker series arithmetic (scanner.py lines 155-172) -/

/-- `series.iloc[-1]` (guarded by the length checks before use). -/
def lastD (l : List ℚ) : ℚ := l.getLastD 0

/-- `series.iloc[-2]` (guarded by the length checks before use). -/
def secondLast (l : List ℚ) : ℚ := l.dropLast.getLastD 0

/-- `series.tail(n)`: the last `n` entries (the whole list when shorter). -/
def lastN (n : ℕ) (l : List ℚ) : List ℚ := l.drop (l.length - n)

/-- `series.mean()`. -/
def mean (l : List ℚ) : ℚ := l.sum / l.length

/-- `series.max()` on a nonempty series (0 as a don't-care default). -/
def maxD : List ℚ → ℚ
  | [] => 0
  | x :: xs => xs.foldl max x

/-- `avg20 = v.tail(20).mean() if len(v) >= 20 else v.mean()` (line 159). -/
def avgVol (v : List ℚ) : ℚ := if 20 ≤ v.length then mean (lastN 20 v) else mean v

/-- `vol_ratio = today_vol / avg20 if avg20 > 0 else 0.0` (line 164). -/
def volRatio (v : List ℚ) : ℚ := if 0 < avgVol v then lastD v / avgVol v else 0

/-- `pct_change = (c.iloc[-1] / c.iloc[-2] - 1.0) * 100.0 if len(c) >= 2 else 0.0`
(line 168). -/
def pctChange (c : List ℚ) : ℚ :=
  if 2 ≤ c.length then (lastD c / secondLast c - 1) * 100 else 0

/-- `hi20 = c.tail(20).max()` (line 172). -/
def hi20 (c : List ℚ) : ℚ := maxD (lastN 20 c)

/-- The per-ticker body of `scan_universe` (scanner.py lines 148-182): the five
sequential filters, then the appended record.  `c.empty`/`v.empty` are subsumed
by the length checks. -/
def evalTicker (cfg : Config) (t : String) (c v : List ℚ) : Option Candidate :=
  if c.length < 5 ∨ v.length < 5 then none
  else if ¬ (cfg.MIN_PRICE ≤ lastD c ∧ lastD c < cfg.MAX_PRICE) then none
  else if avgVol v < (cfg.MIN_AVG_VOL : ℚ) then none
  else if volRatio v < cfg.VOL_RATIO_THRESHOLD then none
  else if pctChange c < cfg.PCT_CHANGE_MIN then none
  else some
    { Ticker := t
      LastPrice := roundDec 4 (lastD c)
      PctChange := roundDec 2 (pctChange c)
      AvgVol20d := pyInt (avgVol v)
      TodayVol := pyInt (lastD v)
      VolRatio := roundDec 2 (volRatio v)
      High20d := roundDec 4 (hi20 c)
      Breakout := decide (lastD c ≥ hi20 c * (995/1000)) }

/-! ## Trade plan (scanner.py lines 211-217) -/

structure TradePlan where
  Entry : ℚ
  Stop : ℚ
  Target1 : ℚ
  Target2 : ℚ
deriving DecidableEq

/-- `entry = round(max(MIN_PRICE, px * 0.97), 4)` (scanner.py line 213). -/
def planEntry (MIN_PRICE px : ℚ) : ℚ := roundDec 4 (max MIN_PRICE (px * (97/100)))

/-- `plan_rows` from `main` (scanner.py lines 211-217), applied to a row's
(already 4-decimal-rounded) `LastPrice`. -/
def plan_rows (MIN_PRICE px : ℚ) : TradePlan :=
  { Entry := planEntry MIN_PRICE px
    Stop := roundDec 4 (planEntry MIN_PRICE px * (9/10))
    Target1 := roundDec 4 (planEntry MIN_PRICE px * (112/100))
    Target2 := roundDec 4 (planEntry MIN_PRICE px * (125/100)) }

/-! ## Concrete inputs used in the examples below -/

/-- The example ticker symbol. -/
def tABC : String := "ABC"

/-- Example 1 configuration: MIN_PRICE=0.5, MAX_PRICE=3, MIN_AVG_VOL=50000,
VOL_RATIO_THRESHOLD=3.0, PCT_CHANGE_MIN=8.0. -/
def cfgC4 : Config :=
  { MIN_PRICE := 1/2, MAX_PRICE := 3, MIN_AVG_VOL := 50000
    VOL_RATIO_THRESHOLD := 3, PCT_CHANGE_MIN := 8 }

/-- Example 1 closes: [1.00, 1.00, 1.00, 1.00, 1.00, 1.10]. -/
def closesC4 : List ℚ := [1, 1, 1, 1, 1, 11/10]

/-- Example 1 volumes: [100000]*5 + [500000]. -/
def volsC4 : List ℚ := [100000, 100000, 100000, 100000, 100000, 500000]

/-- What `scan_universe` actually records for Example 1: the six volumes are
averaged together (1000000/6), truncated to 166666, and the volume ratio is
500000 / (1000000/6) = 3.0. -/
def recC4 : Candidate :=
  { Ticker := tABC, LastPrice := 11/10, PctChange := 10, AvgVol20d := 166666
    TodayVol := 500000, VolRatio := 3, High20d := 11/10, Breakout := true }

theorem evalTicker_example1 : evalTicker cfgC4 tABC closesC4 volsC4 = some recC4 := by
  norm_num [evalTicker, cfgC4, closesC4, volsC4, recC4, lastD, secondLast, lastN, mean,
    maxD, avgVol, volRatio, pctChange, hi20, roundDec, rhe, ratFloor_eq_floor, pyInt,
    List.getLastD, List.dropLast, max_def, decide_eq_true_eq]

theorem plan_rows_example1 :
    (plan_rows cfgC4.MIN_PRICE recC4.LastPrice).Entry = 1067/1000
    ∧ (plan_rows cfgC4.MIN_PRICE recC4.LastPrice).Stop = 9603/10000
    ∧ (plan_rows cfgC4.MIN_PRICE recC4.LastPrice).Target1 = 1195/1000 := by
  norm_num [plan_rows, planEntry, cfgC4, recC4, roundDec, rhe, ratFloor_eq_floor, max_def]

/-- The binary64 double the program stores for Example 1's entry: `round`
returns the Python float written 1.067, the dyadic rational with significand
4805340802404319 and exponent -52.  `entryDouble_half_ulp` certifies it lies
strictly within half an ulp (2^-53 on [1,2)) of 1067/1000, so it is the
unique binary64 value nearest 1.067. -/
def entryDouble : ℚ := 4805340802404319 / 2 ^ 52

/-- The binary64 product `entry * 1.25` computed at scanner.py line 216 for
Example 1: the exact product `entryDouble * 5/4` needs a 55-bit significand,
and this dyadic rational (significand 6006676003005399, exponent -52) is
certified by `target2Double_half_ulp` to lie strictly within half an ulp of
it, so it is the round-to-nearest binary64 product.  Its value is
1.3337499999999999911..., just below the decimal midpoint 1.33375. -/
def target2Double : ℚ := 6006676003005399 / 2 ^ 52

theorem entryDouble_half_ulp : |entryDouble - 1067/1000| < 1 / 2 ^ 53 := by
  rw [abs_sub_lt_iff]
  norm_num [entryDouble]

theorem target2Double_half_ulp :
    |target2Double - entryDouble * (125/100)| < 1 / 2 ^ 53 := by
  rw [abs_sub_lt_iff]
  norm_num [entryDouble, target2Double]

/-- The 4-decimal rounding of the binary64 product is 1.3337 (the exact value
of the double is below the decimal midpoint, so no tie is involved). -/
theorem roundDec_target2Double : roundDec 4 target2Double = 13337/10000 := by
  norm_num [target2Double, roundDec, rhe, ratFloor_eq_floor]

/-- C4 counterexample: on Example 1's input the recorded volume ratio is 3.0
(the code averages all six volumes), not the claimed 5.0, and the recorded
20-session average volume is 166666, not 100000. -/
theorem example1_record_differs :
    (evalTicker cfgC4 tABC closesC4 volsC4).map Candidate.VolRatio = some 3
    ∧ (evalTicker cfgC4 tABC closesC4 volsC4).map Candidate.AvgVol20d = some 166666
    ∧ ((3:ℚ) ≠ 5) ∧ ((166666:ℤ) ≠ 100000) := by
  refine ⟨?_, ?_, by norm_num, by norm_num⟩ <;> rw [evalTicker_example1] <;> rfl

/-- C4 (amended): Example 1's ticker is accepted, with last price 1.10,
pct_change 10.0, avg20 = 166666 (the mean of all six volumes, truncated),
vol_ratio = 3.0 (which passes the 3.0 threshold exactly), high20 = 1.10,
breakout true.  The trade plan on the recorded last price has entry = 1.067,
stop = 0.9603 and target1 = 1.195 — values on which exact-rational and
binary64 evaluation agree — and target2 = 1.3337, not 1.3338: the program
multiplies the stored double entry (within half an ulp of 1.067) by 1.25 in
binary64, the rounded product (within half an ulp of the exact product) is
1.33374999999999999..., just below the decimal midpoint, so its 4-decimal
rounding is 1.3337. -/
theorem example1_evaluation :
    evalTicker cfgC4 tABC closesC4 volsC4 = some recC4
    ∧ (plan_rows cfgC4.MIN_PRICE recC4.LastPrice).Entry = 1067/1000
    ∧ (plan_rows cfgC4.MIN_PRICE recC4.LastPrice).Stop = 9603/10000
    ∧ (plan_rows cfgC4.MIN_PRICE recC4.LastPrice).Target1 = 1195/1000
    ∧ |entryDouble - 1067/1000| < 1 / 2 ^ 53
    ∧ |target2Double - entryDouble * (125/100)| < 1 / 2 ^ 53
    ∧ roundDec 4 target2Double = 13337/10000 :=
  ⟨evalTicker_example1, plan_rows_example1.1, plan_rows_example1.2.1,
    plan_rows_example1.2.2, entryDouble_half_ulp, target2Double_half_ulp,
    roundDec_target2Double⟩

/-! ## C1: threshold invariants of recorded candidate fields -/

/-- C1 (amended): if the configured bounds sit on the rounding grids
(MIN_PRICE and MAX_PRICE multiples of 10^-4, the two rounded thresholds
multiples of 10^-2 — the defaults do), then every recorded candidate satisfies
MIN_PRICE ≤ LastPrice ≤ MAX_PRICE, AvgVol20d ≥ MIN_AVG_VOL,
VolRatio ≥ VOL_RATIO_THRESHOLD and PctChange ≥ PCT_CHANGE_MIN.  The upper
price bound is non-strict: rounding the last price to 4 decimals can land
exactly on MAX_PRICE. -/
theorem evalTicker_thresholds (cfg : Config) (t : String) (c v : List ℚ) (r : Candidate)
    (hmin : ∃ k : ℤ, cfg.MIN_PRICE = (k : ℚ) / 10 ^ 4)
    (hmax : ∃ k : ℤ, cfg.MAX_PRICE = (k : ℚ) / 10 ^ 4)
    (hvr : ∃ k : ℤ, cfg.VOL_RATIO_THRESHOLD = (k : ℚ) / 10 ^ 2)
    (hpc : ∃ k : ℤ, cfg.PCT_CHANGE_MIN = (k : ℚ) / 10 ^ 2)
    (h : evalTicker cfg t c v = some r) :
    cfg.MIN_PRICE ≤ r.LastPrice ∧ r.LastPrice ≤ cfg.MAX_PRICE
    ∧ cfg.MIN_AVG_VOL ≤ r.AvgVol20d
    ∧ cfg.VOL_RATIO_THRESHOLD ≤ r.VolRatio
    ∧ cfg.PCT_CHANGE_MIN ≤ r.PctChange := by
  unfold evalTicker at h
  split_ifs at h with h1 h2 h3 h4 h5
  obtain ⟨hlo, hhi⟩ := h2
  injection h with h
  subst h
  obtain ⟨kmin, hkmin⟩ := hmin
  obtain ⟨kmax, hkmax⟩ := hmax
  obtain ⟨kvr, hkvr⟩ := hvr
  obtain ⟨kpc, hkpc⟩ := hpc
  have gmin : roundDec 4 cfg.MIN_PRICE = cfg.MIN_PRICE := by
    rw [hkmin]; exact roundDec_intGrid 4 kmin
  have gmax : roundDec 4 cfg.MAX_PRICE = cfg.MAX_PRICE := by
    rw [hkmax]; exact roundDec_intGrid 4 kmax
  have gvr : roundDec 2 cfg.VOL_RATIO_THRESHOLD = cfg.VOL_RATIO_THRESHOLD := by
    rw [hkvr]; exact roundDec_intGrid 2 kvr
  have gpc : roundDec 2 cfg.PCT_CHANGE_MIN = cfg.PCT_CHANGE_MIN := by
    rw [hkpc]; exact roundDec_intGrid 2 kpc
  refine ⟨?_, ?_, ?_, ?_, ?_⟩
  · show cfg.MIN_PRICE ≤ roundDec 4 (lastD c)
    rw [← gmin]; exact roundDec_mono 4 hlo
  · show roundDec 4 (lastD c) ≤ cfg.MAX_PRICE
    rw [← gmax]; exact roundDec_mono 4 hhi.le
  · show cfg.MIN_AVG_VOL ≤ pyInt (avgVol v)
    exact le_pyInt (not_lt.mp h3)
  · show cfg.VOL_RATIO_THRESHOLD ≤ roundDec 2 (volRatio v)
    rw [← gvr]; exact roundDec_mono 2 (not_lt.mp h4)
  · show cfg.PCT_CHANGE_MIN ≤ roundDec 2 (pctChange c)
    rw [← gpc]; exact roundDec_mono 2 (not_lt.mp h5)

/-- Closes ending at 2.99996, just inside the default price band. -/
def closesEdge : List ℚ := [2, 2, 2, 2, 299996/100000]

/-- Volumes giving avg20 = 2000000 and vol_ratio exactly 4.0. -/
def volsEdge : List ℚ := [500000, 500000, 500000, 500000, 8000000]

/-- The example ticker symbol for the boundary input. -/
def tZZZ : String := "ZZZ"

theorem evalTicker_edge :
    evalTicker defaultConfig tZZZ closesEdge volsEdge = some
      { Ticker := tZZZ, LastPrice := 3, PctChange := 50, AvgVol20d := 2000000
        TodayVol := 8000000, VolRatio := 4, High20d := 3, Breakout := true } := by
  norm_num [evalTicker, defaultConfig, closesEdge, volsEdge, lastD, secondLast, lastN,
    mean, maxD, avgVol, volRatio, pctChange, hi20, roundDec, rhe, ratFloor_eq_floor,
    pyInt, List.getLastD, List.dropLast, max_def, decide_eq_true_eq]

/-- C1 counterexample: under the default configuration, a last close of
2.99996 passes the strict `< MAX_PRICE` filter, but its recorded 4-decimal
rounding is exactly 3.0 = MAX_PRICE, so the recorded LastPrice violates
`LastPrice < MAX_PRICE`. -/
theorem recorded_lastPrice_not_below_max :
    (evalTicker defaultConfig tZZZ closesEdge volsEdge).map Candidate.LastPrice = some 3
    ∧ ¬ ((3:ℚ) < defaultConfig.MAX_PRICE) := by
  constructor
  · rw [evalTicker_edge]; rfl
  · norm_num [defaultConfig]

theorem evalTicker_thresholds_holds :
    defaultConfig.MIN_PRICE ≤ (3:ℚ) ∧ (3:ℚ) ≤ defaultConfig.MAX_PRICE
    ∧ defaultConfig.MIN_AVG_VOL ≤ (2000000:ℤ)
    ∧ defaultConfig.VOL_RATIO_THRESHOLD ≤ (4:ℚ)
    ∧ defaultConfig.PCT_CHANGE_MIN ≤ (50:ℚ) :=
  evalTicker_thresholds defaultConfig tZZZ closesEdge volsEdge _
    ⟨5000, by norm_num [defaultConfig]⟩ ⟨30000, by norm_num [defaultConfig]⟩
    ⟨400, by norm_num [defaultConfig]⟩ ⟨800, by norm_num [defaultConfig]⟩
    evalTicker_edge

/-! ## C2: trade plan invariant -/

/-- C2: for any grid-aligned price floor MIN_PRICE ≥ 0.01 (the default 0.50 is)
and any last price P ≥ MIN_PRICE, the rounded plan satisfies
entry ≤ P, entry ≥ MIN_PRICE and stop < entry < target1 < target2. -/
theorem plan_rows_invariant (M P : ℚ) (hgrid : ∃ k : ℤ, M = (k : ℚ) / 10 ^ 4)
    (hM : 1/100 ≤ M) (hP : M ≤ P) :
    (plan_rows M P).Entry ≤ P ∧ M ≤ (plan_rows M P).Entry
    ∧ (plan_rows M P).Stop < (plan_rows M P).Entry
    ∧ (plan_rows M P).Entry < (plan_rows M P).Target1
    ∧ (plan_rows M P).Target1 < (plan_rows M P).Target2 := by
  obtain ⟨k, hk⟩ := hgrid
  have gM : roundDec 4 M = M := by rw [hk]; exact roundDec_intGrid 4 k
  have hentry_le : planEntry M P ≤ P := by
    unfold planEntry
    rcases le_total (P * (97/100)) M with hc | hc
    · rw [max_eq_left hc, gM]; exact hP
    · rw [max_eq_right hc]
      have hb := roundDec_le 4 (P * (97/100))
      have : (1:ℚ) / (2 * 10 ^ 4) = 1/20000 := by norm_num
      rw [this] at hb
      linarith [hb, hP, hM]
  have hentry_ge : M ≤ planEntry M P := by
    have h2 : roundDec 4 M ≤ roundDec 4 (max M (P * (97/100))) :=
      roundDec_mono 4 (le_max_left M (P * (97/100)))
    rw [gM] at h2
    exact h2
  have hE : (1:ℚ)/100 ≤ planEntry M P := le_trans hM hentry_ge
  have hb1 := roundDec_le 4 (planEntry M P * (9/10))
  have hb2 := le_roundDec 4 (planEntry M P * (112/100))
  have hb3 := roundDec_le 4 (planEntry M P * (112/100))
  have hb4 := le_roundDec 4 (planEntry M P * (125/100))
  have hnum : (1:ℚ) / (2 * 10 ^ 4) = 1/20000 := by norm_num
  rw [hnum] at hb1 hb2 hb3 hb4
  refine ⟨hentry_le, hentry_ge, ?_, ?_, ?_⟩
  · show roundDec 4 (planEntry M P * (9/10)) < planEntry M P
    linarith [hb1, hE]
  · show planEntry M P < roundDec 4 (planEntry M P * (112/100))
    linarith [hb2, hE]
  · show roundDec 4 (planEntry M P * (112/100)) < roundDec 4 (planEntry M P * (125/100))
    linarith [hb3, hb4, hE]

theorem half_grid : ∃ k : ℤ, (1/2 : ℚ) = (k : ℚ) / 10 ^ 4 := ⟨5000, by norm_num⟩

theorem half_ge_centi : (1/100 : ℚ) ≤ 1/2 := by norm_num

theorem half_le_eleven_tenths : (1/2 : ℚ) ≤ 11/10 := by norm_num

theorem plan_rows_invariant_holds :
    (plan_rows (1/2) (11/10)).Entry ≤ 11/10 ∧ (1/2:ℚ) ≤ (plan_rows (1/2) (11/10)).Entry
    ∧ (plan_rows (1/2) (11/10)).Stop < (plan_rows (1/2) (11/10)).Entry
    ∧ (plan_rows (1/2) (11/10)).Entry < (plan_rows (1/2) (11/10)).Target1
    ∧ (plan_rows (1/2) (11/10)).Target1 < (plan_rows (1/2) (11/10)).Target2 :=
  plan_rows_invariant (1/2) (11/10) half_grid half_ge_centi half_le_eleven_tenths

/-! ## Ranking (scanner.py line 191): stable descending sort by (VolRatio, PctChange).

`DataFrame.sort_values` with a list of keys lexsorts (a stable sort); with
`ascending=False` the key codes are reversed, not the result, so stability is
preserved.  The model is insertion sort with the descending-lexicographic
comparison, which is the unique stable sort for that key. -/

/-- The sort key of a record: (VolRatio, PctChange). -/
def recKey (r : Candidate) : ℚ × ℚ := (r.VolRatio, r.PctChange)

/-- Descending lexicographic comparison on (VolRatio, PctChange): `recGE a b`
means `a` may come before `b`. -/
def recGE (a b : Candidate) : Prop :=
  b.VolRatio < a.VolRatio ∨ (b.VolRatio = a.VolRatio ∧ b.PctChange ≤ a.PctChange)

instance : DecidableRel recGE := fun a b => by
  unfold recGE; infer_instance

instance : IsTotal Candidate recGE := by
  constructor
  intro a b
  rcases lt_trichotomy a.VolRatio b.VolRatio with h | h | h
  · exact Or.inr (Or.inl h)
  · rcases le_total a.PctChange b.PctChange with hp | hp
    · exact Or.inr (Or.inr ⟨h, hp⟩)
    · exact Or.inl (Or.inr ⟨h.symm, hp⟩)
  · exact Or.inl (Or.inl h)

instance : IsTrans Candidate recGE := by
  constructor
  intro a b c hab hbc
  rcases hab with h1 | ⟨h1, h1p⟩ <;> rcases hbc with h2 | ⟨h2, h2p⟩
  · exact Or.inl (h2.trans h1)
  · exact Or.inl (h2 ▸ h1)
  · exact Or.inl (h1 ▸ h2)
  · exact Or.inr ⟨h2.trans h1, h2p.trans h1p⟩

/-- `results.sort_values(["VolRatio","PctChange"], ascending=False)`. -/
def rankRecords (l : List Candidate) : List Candidate := List.insertionSort recGE l

/-- Records with a given key, in order: the stability observer. -/
def keyFilter (k : ℚ × ℚ) (l : List Candidate) : List Candidate :=
  l.filter fun r => decide (recKey r = k)

theorem recGE_of_key_eq {a b : Candidate} (h : recKey a = recKey b) : recGE a b := by
  unfold recKey at h
  injection h with h1 h2
  exact Or.inr ⟨h1.symm, le_of_eq h2.symm⟩

theorem keyFilter_nil (k : ℚ × ℚ) : keyFilter k [] = [] := rfl

theorem keyFilter_cons (k : ℚ × ℚ) (b : Candidate) (l : List Candidate) :
    keyFilter k (b :: l) =
      if recKey b = k then b :: keyFilter k l else keyFilter k l := by
  by_cases hb : recKey b = k <;> simp [keyFilter, List.filter_cons, hb]

theorem keyFilter_orderedInsert (k : ℚ × ℚ) (a : Candidate) (l : List Candidate) :
    keyFilter k (List.orderedInsert recGE a l) =
      if recKey a = k then a :: keyFilter k l else keyFilter k l := by
  induction l with
  | nil =>
    by_cases hk : recKey a = k <;>
      simp [List.orderedInsert, keyFilter_cons, keyFilter_nil, hk]
  | cons b t ih =>
    by_cases hab : recGE a b
    · by_cases hk : recKey a = k <;>
        simp [List.orderedInsert, if_pos hab, keyFilter_cons, hk]
    · rw [List.orderedInsert, if_neg hab]
      by_cases hk : recKey a = k
      · have hbk : ¬ (recKey b = k) := by
          intro hbk
          exact hab (recGE_of_key_eq (hk.trans hbk.symm))
        simp [keyFilter_cons, hbk, ih, hk]
      · by_cases hbk : recKey b = k <;> simp [keyFilter_cons, hbk, ih, hk]

theorem keyFilter_insertionSort (k : ℚ × ℚ) (l : List Candidate) :
    keyFilter k (List.insertionSort recGE l) = keyFilter k l := by
  induction l with
  | nil => rfl
  | cons a t ih =>
    rw [List.insertionSort, keyFilter_orderedInsert, keyFilter_cons, ih]

/-! ## The scan loop over batches (scanner.py lines 136-192) -/

/-- One batch as seen by the per-ticker loop: `none` when `dl_batch` exhausted
its retries (the batch is skipped, line 144-146); otherwise the tickers of the
batch, each with `none` when its extraction/evaluation raised (the ticker is
skipped, lines 183-186) or its (close, volume) series. -/
abbrev BatchOutcome := Option (List (String × Option (List ℚ × List ℚ)))

/-- The inner loop over one batch's tickers. -/
def runBatch (cfg : Config) : BatchOutcome → List Candidate
  | none => []
  | some rows => rows.filterMap fun p =>
      match p.2 with
      | none => none
      | some (c, v) => evalTicker cfg p.1 c v

/-- The accumulated `results` list, in batch order. -/
def scanResults (cfg : Config) : List BatchOutcome → List Candidate
  | [] => []
  | b :: bs => runBatch cfg b ++ scanResults cfg bs

/-- The full column schema of the result table (scanner.py line 189). -/
def schemaColumns : List String :=
  ["Ticker", "LastPrice", "PctChange", "AvgVol20d", "TodayVol", "VolRatio", "High20d", "Breakout"]

/-- The returned DataFrame: its column schema and its rows. -/
structure ScanTable where
  columns : List String
  rows : List Candidate
deriving DecidableEq

/-- `scan_universe` (scanner.py lines 188-192): an empty accumulation yields an
empty table that still carries the full schema; otherwise the ranked records. -/
def scan_universe (cfg : Config) (batches : List BatchOutcome) : ScanTable :=
  if (scanResults cfg batches).isEmpty then { columns := schemaColumns, rows := [] }
  else { columns := schemaColumns, rows := rankRecords (scanResults cfg batches) }

theorem scanResults_append (cfg : Config) (l₁ l₂ : List BatchOutcome) :
    scanResults cfg (l₁ ++ l₂) = scanResults cfg l₁ ++ scanResults cfg l₂ := by
  induction l₁ with
  | nil => simp [scanResults]
  | cons b bs ih => simp [scanResults, ih]

theorem rankRecords_nil : rankRecords [] = [] := rfl

/-- C3: the ranked rows of the returned table are exactly the stable descending
sort of the accumulated records: (a) the table's rows are `rankRecords` of the
accumulation, (b) the output is a permutation of the input, (c) it is sorted by
the descending-lexicographic order on (VolRatio, PctChange), and (d) for every
key value, the records carrying that key appear in their original append
order. -/
theorem scan_ranking_sorted_stable :
    (∀ (cfg : Config) (bs : List BatchOutcome),
      (scan_universe cfg bs).rows = rankRecords (scanResults cfg bs))
    ∧ (∀ l : List Candidate, List.Perm (rankRecords l) l)
    ∧ (∀ l : List Candidate, List.Sorted recGE (rankRecords l))
    ∧ (∀ (l : List Candidate) (k : ℚ × ℚ), keyFilter k (rankRecords l) = keyFilter k l) := by
  refine ⟨?_, ?_, ?_, ?_⟩
  · intro cfg bs
    unfold scan_universe
    by_cases h : (scanResults cfg bs).isEmpty
    · rw [if_pos h]
      rw [List.isEmpty_iff] at h
      rw [h, rankRecords_nil]
    · rw [if_neg h]
  · intro l
    exact List.perm_insertionSort recGE l
  · intro l
    exact List.sorted_insertionSort recGE l
  · intro l k
    exact keyFilter_insertionSort k l

/-- C5: failure isolation.  (a) A batch whose download failed all retries is
skipped: the returned table is identical to the one produced had that batch
not been in the universe.  (b) A ticker whose evaluation failed is skipped:
the returned table is identical to the one produced had that ticker not been
in its batch. -/
theorem scan_failure_isolated :
    (∀ (cfg : Config) (pre post : List BatchOutcome),
      scan_universe cfg (pre ++ none :: post) = scan_universe cfg (pre ++ post))
    ∧ (∀ (cfg : Config) (pre post : List BatchOutcome) (t : String)
        (rows₁ rows₂ : List (String × Option (List ℚ × List ℚ))),
      scan_universe cfg (pre ++ some (rows₁ ++ (t, none) :: rows₂) :: post)
        = scan_universe cfg (pre ++ some (rows₁ ++ rows₂) :: post)) := by
  constructor
  · intro cfg pre post
    have h : scanResults cfg (pre ++ none :: post) = scanResults cfg (pre ++ post) := by
      rw [scanResults_append, scanResults_append]
      simp [scanResults, runBatch]
    unfold scan_universe
    rw [h]
  · intro cfg pre post t rows₁ rows₂
    have hb : runBatch cfg (some (rows₁ ++ (t, none) :: rows₂))
        = runBatch cfg (some (rows₁ ++ rows₂)) := by
      simp [runBatch, List.filterMap_append, List.filterMap_cons]
    have h : scanResults cfg (pre ++ some (rows₁ ++ (t, none) :: rows₂) :: post)
        = scanResults cfg (pre ++ some (rows₁ ++ rows₂) :: post) := by
      rw [scanResults_append, scanResults_append]
      simp [scanResults, hb]
    unfold scan_universe
    rw [h]

/-! ## Report emitter (scanner.py lines 122-133, 227-231) -/

/-- A row of the enriched table handed to `format_discord` in `main`
(after news and plan columns are appended). -/
structure PlanRow where
  Ticker : String
  LastPrice : ℚ
  Entry : ℚ
  Stop : ℚ
  Target1 : ℚ
  Target2 : ℚ
  VolRatio : ℚ
  PctChange : ℚ
  RecentNews : String

/-- Rendering of a numeric cell (Python str() of the stored value; the exact
digits are immaterial to the properties below). -/
def fmtCell (q : ℚ) : String := toString q

/-- The newline separator. -/
def nl : String := "\n"

/-- One candidate line of the Discord message (scanner.py lines 128-132). -/
def candidateLine (r : PlanRow) : String :=
  "\n**" ++ r.Ticker ++ "**  $" ++ fmtCell r.LastPrice
    ++ " | Entry " ++ fmtCell r.Entry ++ " | Stop " ++ fmtCell r.Stop
    ++ " | T1 " ++ fmtCell r.Target1 ++ " | T2 " ++ fmtCell r.Target2
    ++ " | Vol× " ++ fmtCell r.VolRatio ++ " | Chg " ++ fmtCell r.PctChange
    ++ "% | News48h " ++ r.RecentNews

/-- `format_discord` (scanner.py lines 122-133): the fixed message on an empty
table, else a header plus the first `top_n` candidate lines. -/
def format_discord (rows : List PlanRow) (top_n : ℕ) : String :=
  if rows.isEmpty then "**Penny Scan Alert**\nNo candidates today."
  else String.intercalate nl ("**Penny Scan Alert**" :: (rows.take top_n).map candidateLine)

/-- Python string slicing `s[:n]`: the first `n` code points, total for every
input. -/
def pyTruncate (s : String) (n : ℕ) : String := { data := s.data.take n }

/-- The payload posted to the webhook: `msg[:1900]` (scanner.py line 230). -/
def discordPayload (rows : List PlanRow) (top_n : ℕ) : String :=
  pyTruncate (format_discord rows top_n) 1900

theorem pyTruncate_length (s : String) (n : ℕ) :
    (pyTruncate s n).length = min n s.length := by
  show (s.data.take n).length = min n s.data.length
  simp [List.length_take]

/-- C7: when the scan accumulates no records, the returned table has zero rows
but the full eight-column schema, and the notification text formatted from an
empty table is the fixed no-candidates message. -/
theorem scan_empty_schema (cfg : Config) (bs : List BatchOutcome) (top_n : ℕ)
    (h : scanResults cfg bs = []) :
    (scan_universe cfg bs).columns = schemaColumns
    ∧ (scan_universe cfg bs).rows = []
    ∧ format_discord [] top_n = "**Penny Scan Alert**\nNo candidates today." := by
  refine ⟨?_, ?_, rfl⟩ <;> unfold scan_universe <;> rw [h] <;> rfl

theorem scan_empty_schema_holds :
    (scan_universe defaultConfig []).columns = schemaColumns
    ∧ (scan_universe defaultConfig []).rows = []
    ∧ format_discord [] 10 = "**Penny Scan Alert**\nNo candidates today." :=
  scan_empty_schema defaultConfig [] 10 rfl

/-- C8: the transmitted payload is the truncation of the final assembled
message: its length is `min 1900 (length msg)` — so it never exceeds 1900
characters, and it is exactly 1900 characters whenever the assembled message
is longer; `pyTruncate` is total, so truncation cannot raise. -/
theorem discordPayload_bounded (rows : List PlanRow) (top_n : ℕ) :
    discordPayload rows top_n = pyTruncate (format_discord rows top_n) 1900
    ∧ (discordPayload rows top_n).length = min 1900 (format_discord rows top_n).length
    ∧ (discordPayload rows top_n).length ≤ 1900 :=
  ⟨rfl, pyTruncate_length _ 1900,
    (pyTruncate_length _ 1900).le.trans (min_le_left _ _)⟩

/-! ## C9, C10: the defensive fallbacks in the ratio and momentum steps are dead -/

/-- The volume ratio with the `avg20 > 0` guard removed: the exact quotient
`today_vol / avg20`. -/
def volRatioExact (v : List ℚ) : ℚ := lastD v / avgVol v

/-- `evalTicker` with the guarded ratio replaced by the exact quotient. -/
def evalTickerExactRatio (cfg : Config) (t : String) (c v : List ℚ) : Option Candidate :=
  if c.length < 5 ∨ v.length < 5 then none
  else if ¬ (cfg.MIN_PRICE ≤ lastD c ∧ lastD c < cfg.MAX_PRICE) then none
  else if avgVol v < (cfg.MIN_AVG_VOL : ℚ) then none
  else if volRatioExact v < cfg.VOL_RATIO_THRESHOLD then none
  else if pctChange c < cfg.PCT_CHANGE_MIN then none
  else some
    { Ticker := t
      LastPrice := roundDec 4 (lastD c)
      PctChange := roundDec 2 (pctChange c)
      AvgVol20d := pyInt (avgVol v)
      TodayVol := pyInt (lastD v)
      VolRatio := roundDec 2 (volRatioExact v)
      High20d := roundDec 4 (hi20 c)
      Breakout := decide (lastD c ≥ hi20 c * (995/1000)) }

/-- C9: when `MIN_AVG_VOL > 0`, the liquidity filter guarantees `avg20 > 0`
wherever the volume ratio is computed, so the `avg20 == 0` fallback branch is
unreachable and the evaluation is pointwise identical to the variant that
always takes the exact quotient. -/
theorem evalTicker_ratio_guard_dead (cfg : Config) (h : 0 < cfg.MIN_AVG_VOL)
    (t : String) (c v : List ℚ) :
    evalTicker cfg t c v = evalTickerExactRatio cfg t c v := by
  by_cases h1 : c.length < 5 ∨ v.length < 5
  · simp [evalTicker, evalTickerExactRatio, h1]
  by_cases h2 : ¬ (cfg.MIN_PRICE ≤ lastD c ∧ lastD c < cfg.MAX_PRICE)
  · simp [evalTicker, evalTickerExactRatio, h1, h2]
  by_cases h3 : avgVol v < (cfg.MIN_AVG_VOL : ℚ)
  · simp [evalTicker, evalTickerExactRatio, h1, h2, h3]
  · have hpos : (0:ℚ) < avgVol v :=
      lt_of_lt_of_le (by exact_mod_cast h) (not_lt.mp h3)
    have hvr : volRatio v = volRatioExact v := by
      unfold volRatio volRatioExact
      rw [if_pos hpos]
    simp [evalTicker, evalTickerExactRatio, h1, h2, h3, hvr]

theorem evalTicker_ratio_guard_dead_holds :
    evalTicker defaultConfig tABC closesC4 volsC4
      = evalTickerExactRatio defaultConfig tABC closesC4 volsC4 :=
  evalTicker_ratio_guard_dead defaultConfig (by decide) tABC closesC4 volsC4

/-- The percent change with the `len(c) >= 2` guard removed. -/
def pctChangeExact (c : List ℚ) : ℚ := (lastD c / secondLast c - 1) * 100

/-- `evalTicker` with the guarded percent change replaced by the exact
formula. -/
def evalTickerExactPct (cfg : Config) (t : String) (c v : List ℚ) : Option Candidate :=
  if c.length < 5 ∨ v.length < 5 then none
  else if ¬ (cfg.MIN_PRICE ≤ lastD c ∧ lastD c < cfg.MAX_PRICE) then none
  else if avgVol v < (cfg.MIN_AVG_VOL : ℚ) then none
  else if volRatio v < cfg.VOL_RATIO_THRESHOLD then none
  else if pctChangeExact c < cfg.PCT_CHANGE_MIN then none
  else some
    { Ticker := t
      LastPrice := roundDec 4 (lastD c)
      PctChange := roundDec 2 (pctChangeExact c)
      AvgVol20d := pyInt (avgVol v)
      TodayVol := pyInt (lastD v)
      VolRatio := roundDec 2 (volRatio v)
      High20d := roundDec 4 (hi20 c)
      Breakout := decide (lastD c ≥ hi20 c * (995/1000)) }

/-- C10: the minimum-history filter already guarantees at least 5 close
observations wherever the momentum step runs, so the `len < 2` fallback that
treats the percent change as 0 is unreachable for every configuration
(whatever the sign of PCT_CHANGE_MIN) and every input. -/
theorem evalTicker_pct_guard_dead (cfg : Config) (t : String) (c v : List ℚ) :
    evalTicker cfg t c v = evalTickerExactPct cfg t c v := by
  by_cases h1 : c.length < 5 ∨ v.length < 5
  · simp [evalTicker, evalTickerExactPct, h1]
  · have hc : 2 ≤ c.length := by
      push_neg at h1
      omega
    have hp : pctChange c = pctChangeExact c := by
      unfold pctChange pctChangeExact
      rw [if_pos hc]
    simp [evalTicker, evalTickerExactPct, h1, hp]

/-! ## Universe provider (scanner.py lines 32-53) -/

/-- The hardcoded fallback sample, in its source order (scanner.py line 49). -/
def seedTickers : List String :=
  ["RR", "SNDL", "BBIG", "GME", "AMC", "NNDM", "GNS", "NAKD", "CEI", "MARA", "RIOT"]

/-- `isinstance(t, str) and t.isalpha() and 1 <= len(t) <= 5` (line 52). -/
def validTicker (t : String) : Bool :=
  t.data.all Char.isAlpha && decide (1 ≤ t.length) && decide (t.length ≤ 5)

/-- `sorted(dfu['Symbol'].dropna().unique().tolist())` (line 43): the distinct
symbols in ascending order. -/
def sortedUnique (l : List String) : List String :=
  List.insertionSort (fun a b : String => a ≤ b) l.dedup

/-- `load_universe` (scanner.py lines 32-53).  The input models the outcome of
the HTTP fetch plus CSV parse: `none` is a transport failure or non-200 status
(line 36 fails, `tickers = []`); `some (Except.error ())` is a 200 response
whose body fails to parse or lacks the Symbol column — that exception is
raised inside `load_universe` and propagates to the caller (the inner
`try/except` at lines 37-42 only covers the pandas-version fallback);
`some (Except.ok syms)` is a parsed symbol column. -/
def load_universe (resp : Option (Except Unit (List String))) (max_symbols : ℕ) :
    Except Unit (List String) :=
  match resp with
  | some (Except.error e) => Except.error e
  | some (Except.ok syms) =>
      let tickers := sortedUnique syms
      let tickers := if tickers.isEmpty then seedTickers else tickers
      Except.ok ((tickers.filter validTicker).take max_symbols)
  | none =>
      Except.ok ((seedTickers.filter validTicker).take max_symbols)

/-- C6 counterexample: (a) a 200 response whose body fails to parse makes
`load_universe` raise instead of returning the fallback, and (b) on a
transport failure the returned fallback list keeps the seed order, which is
not sorted ("SNDL" precedes "BBIG"). -/
theorem load_universe_can_fail_and_fallback_unsorted :
    load_universe (some (Except.error ())) 600 = Except.error ()
    ∧ load_universe none 600 = Except.ok seedTickers
    ∧ ¬ List.Sorted (fun a b : String => a ≤ b) seedTickers := by
  refine ⟨rfl, rfl, ?_⟩
  intro h
  rw [seedTickers, List.sorted_cons] at h
  obtain ⟨-, h⟩ := h
  rw [List.sorted_cons] at h
  obtain ⟨h, -⟩ := h
  have hb : ("SNDL":String) ≤ "BBIG" := h "BBIG" (by simp)
  rw [String.le_iff_toList_le] at hb
  revert hb
  decide

/-- C6 (amended): whenever the listing outcome is not an unparseable 200
response, `load_universe` returns a list in which every entry is purely
alphabetic of length 1-5, without duplicates, of size at most `max_symbols`;
the list is sorted ascending when it came from the fetch, and otherwise it is
the fixed (unsorted but deterministic) seed list, filtered and truncated. -/
theorem load_universe_spec (resp : Option (Except Unit (List String))) (m : ℕ)
    (l : List String)
    (herr : ∀ e : Unit, resp ≠ some (Except.error e))
    (h : load_universe resp m = Except.ok l) :
    l.all validTicker = true
    ∧ l.Nodup
    ∧ l.length ≤ m
    ∧ (List.Sorted (fun a b : String => a ≤ b) l
       ∨ l = (seedTickers.filter validTicker).take m) := by
  have seed_nodup : List.Nodup seedTickers := by decide
  have base :
      ∀ base : List String, List.Nodup base →
        ((base.filter validTicker).take m).all validTicker = true
        ∧ ((base.filter validTicker).take m).Nodup
        ∧ ((base.filter validTicker).take m).length ≤ m := by
    intro b hb
    refine ⟨?_, ?_, List.length_take_le m _⟩
    · rw [List.all_eq_true]
      intro t ht
      exact List.of_mem_filter (List.mem_of_mem_take ht)
    · exact List.Nodup.sublist (List.take_sublist m _)
        (List.Nodup.sublist (List.filter_sublist b) hb)
  match resp with
  | some (Except.error e) => exact absurd rfl (herr e)
  | none =>
    rw [load_universe] at h
    injection h with h
    subst h
    obtain ⟨ha, hn, hl⟩ := base seedTickers seed_nodup
    exact ⟨ha, hn, hl, Or.inr rfl⟩
  | some (Except.ok syms) =>
    rw [load_universe] at h
    by_cases he : (sortedUnique syms).isEmpty
    · rw [if_pos he] at h
      injection h with h
      subst h
      obtain ⟨ha, hn, hl⟩ := base seedTickers seed_nodup
      exact ⟨ha, hn, hl, Or.inr rfl⟩
    · rw [if_neg he] at h
      injection h with h
      subst h
      have hnodup : (sortedUnique syms).Nodup :=
        ((List.perm_insertionSort (fun a b : String => a ≤ b) syms.dedup).nodup_iff).mpr
          (List.nodup_dedup syms)
      obtain ⟨ha, hn, hl⟩ := base (sortedUnique syms) hnodup
      refine ⟨ha, hn, hl, Or.inl ?_⟩
      have hsorted : List.Sorted (fun a b : String => a ≤ b) (sortedUnique syms) :=
        List.sorted_insertionSort (fun a b : String => a ≤ b) syms.dedup
      exact List.Pairwise.sublist (List.take_sublist m _)
        (List.Pairwise.filter validTicker hsorted)

theorem load_universe_spec_holds :
    seedTickers.all validTicker = true
    ∧ seedTickers.Nodup
    ∧ seedTickers.length ≤ 600
    ∧ (List.Sorted (fun a b : String => a ≤ b) seedTickers
       ∨ seedTickers = (seedTickers.filter validTicker).take 600) :=
  load_universe_spec none 600 seedTickers (fun _e h => Option.noConfusion h) rfl
